import Mathlib

/-!
Verification of the order-tracking data layer of `TamVanum/order_manage_system`.

The repository holds three files: `orders/models.py` (the `Order` model and the
`OrderStatus` enumeration), `orders/querysets.py` (`OrderQuerySet` with four
exact-match filters), and `orders/managers.py` (`OrderManager`, pure delegation
to the queryset).  The queryset filters are embedded directly from the source as
functions over a list of stored orders.  The store operations `create`, `update`
and `get` of §4.1 of the specification are not part of the repository source
(only the declarative field definitions of `models.py` are); they are modelled
from the specification, using the defaults and constraints declared in
`models.py` (`default=OrderStatus.PENDING`, `default=uuid.uuid4`,
`auto_now_add`, `auto_now`, `max_digits=10, decimal_places=2`).
-/

namespace OrderSys

/-- Embeds `OrderStatus` of `src/orders/models.py` (lines 5-12): the closed
`TextChoices` enumeration of the seven lifecycle labels. -/
inductive OrderStatus where
  | pending
  | paid
  | processing
  | shipped
  | delivered
  | cancelled
  | failed
deriving DecidableEq, Repr

/-- The string label each `OrderStatus` member is persisted as: in
`models.py` each `TextChoices` member is declared with its lower-case label. -/
def OrderStatus.label : OrderStatus → String
  | .pending => "pending"
  | .paid => "paid"
  | .processing => "processing"
  | .shipped => "shipped"
  | .delivered => "delivered"
  | .cancelled => "cancelled"
  | .failed => "failed"

/-- All members of the enumeration, in declaration order. -/
def allStatuses : List OrderStatus :=
  [.pending, .paid, .processing, .shipped, .delivered, .cancelled, .failed]

/-- The persisted labels of the enumeration members. -/
def validStatusLabels : List String :=
  ["pending", "paid", "processing", "shipped", "delivered", "cancelled", "failed"]

/-- Embeds the `Order` model of `src/orders/models.py` (lines 14-29).
`id` is the UUID primary key, modelled as a `Nat` drawn freshly by the server;
`total` is the `DecimalField(max_digits=10, decimal_places=2)` amount, modelled
exactly as an integer number of cents; `items` is the opaque `JSONField`
payload, modelled as an opaque list of strings; `created_at`/`updated_at` are
the `auto_now_add`/`auto_now` timestamps, modelled as `Nat` clock readings. -/
structure Order where
  id : Nat
  email : String
  status : OrderStatus
  total : Int
  items : List String
  user_id : String
  payment_id : String
  created_at : Nat
  updated_at : Nat
deriving DecidableEq, Repr

namespace OrderQuerySet

/-- Embeds `OrderQuerySet.get_by_user_id` (`src/orders/querysets.py` lines 4-5):
`self.filter(user_id=user_id)`, exact equality on the `user_id` field. -/
def get_by_user_id (qs : List Order) (user_id : String) : List Order :=
  qs.filter (fun o => o.user_id == user_id)

/-- Embeds `OrderQuerySet.get_by_payment_id` (`querysets.py` lines 7-8):
`self.filter(payment_id=payment_id)`. -/
def get_by_payment_id (qs : List Order) (payment_id : String) : List Order :=
  qs.filter (fun o => o.payment_id == payment_id)

/-- Embeds `OrderQuerySet.get_by_status` (`querysets.py` lines 10-11):
`self.filter(status=status)`.  The argument is an arbitrary string and the
stored `status` is persisted as its label; the source performs no validation
of the argument against the enumeration. -/
def get_by_status (qs : List Order) (status : String) : List Order :=
  qs.filter (fun o => o.status.label == status)

/-- Embeds `OrderQuerySet.get_by_created_at` (`querysets.py` lines 13-14):
`self.filter(created_at=created_at)`, exact match on the full timestamp. -/
def get_by_created_at (qs : List Order) (created_at : Nat) : List Order :=
  qs.filter (fun o => o.created_at == created_at)

end OrderQuerySet

namespace OrderManager

/-- Embeds `OrderManager.get_queryset` (`src/orders/managers.py` lines 5-6):
returns the queryset over the full backing collection. -/
def get_queryset (store : List Order) : List Order :=
  store

/-- Embeds `OrderManager.get_by_user_id` (`managers.py` lines 8-9):
`self.get_queryset().get_by_user_id(user_id)`. -/
def get_by_user_id (store : List Order) (user_id : String) : List Order :=
  OrderQuerySet.get_by_user_id (get_queryset store) user_id

/-- Embeds `OrderManager.get_by_payment_id` (`managers.py` lines 11-12). -/
def get_by_payment_id (store : List Order) (payment_id : String) : List Order :=
  OrderQuerySet.get_by_payment_id (get_queryset store) payment_id

/-- Embeds `OrderManager.get_by_status` (`managers.py` lines 14-15). -/
def get_by_status (store : List Order) (status : String) : List Order :=
  OrderQuerySet.get_by_status (get_queryset store) status

/-- Embeds `OrderManager.get_by_created_at` (`managers.py` lines 17-18). -/
def get_by_created_at (store : List Order) (created_at : Nat) : List Order :=
  OrderQuerySet.get_by_created_at (get_queryset store) created_at

end OrderManager

/-- Error kinds of §7 of the specification. -/
inductive StoreError where
  | validationError
  | notFoundError
deriving DecidableEq, Repr

/-- Modelled from the spec: a syntactically valid email address (`email` is an
`EmailField` in `models.py`; the validation routine itself is framework code
absent from the repository).  Modelled as exactly one `@` that is neither the
first nor the last character. -/
def validEmail (e : String) : Bool :=
  let cs := e.toList
  (cs.count '@' == 1) && (cs.head? != some '@') && (cs.getLast? != some '@')

/-- Modelled from the spec: the `total` amount is valid when it is non-negative
and fits `max_digits=10, decimal_places=2` (declared in `models.py` line 21).
With `total` an exact integer number of cents this is `0 ≤ total < 10^10`. -/
def validTotal (t : Int) : Bool :=
  decide (0 ≤ t) && decide (t < 10000000000)

/-- Parses a status label back to the enumeration member carrying it. -/
def parseStatus (s : String) : Option OrderStatus :=
  allStatuses.find? (fun st => st.label == s)

/-- The partial-update payload accepted by `update` (§3: external
order-processing logic updates `status`, `total`, `items`). -/
structure UpdateFields where
  status : Option String
  total : Option Int
  items : Option (List String)
deriving DecidableEq, Repr

/-- Modelled from the spec: the state of the `OrderStore` of §4.1, which is
absent from the repository source.  `orders` is the backing collection in
insertion order, `nextId` models the server-side fresh-identifier supply
(`default=uuid.uuid4`, `editable=False` in `models.py`), and `now` models the
wall clock read by `auto_now_add`/`auto_now`. -/
structure StoreState where
  orders : List Order
  nextId : Nat
  now : Nat
deriving DecidableEq, Repr

namespace OrderStore

/-- Modelled from the spec (§4.1 `create`): allocates a fresh id, sets
`status = pending`, stamps `created_at = updated_at = now`; fails with
`ValidationError` if the email is malformed or the total is invalid, storing
nothing in that case. -/
def create (σ : StoreState) (email : String) (total : Int) (items : List String)
    (user_id : String) (payment_id : String) : Except StoreError (StoreState × Order) :=
  if validEmail email && validTotal total then
    let o : Order :=
      { id := σ.nextId, email := email, status := .pending, total := total,
        items := items, user_id := user_id, payment_id := payment_id,
        created_at := σ.now, updated_at := σ.now }
    .ok ({ σ with orders := σ.orders ++ [o], nextId := σ.nextId + 1 }, o)
  else
    .error .validationError

/-- Validity of a partial-update payload: a supplied status label must be a
member of the enumeration, a supplied total must satisfy the total invariant. -/
def fieldsValid (f : UpdateFields) : Bool :=
  (match f.status with
   | none => true
   | some s => (parseStatus s).isSome) &&
  (match f.total with
   | none => true
   | some t => validTotal t)

/-- Applies a validated partial update to one order: `id`, `email`,
`created_at`, `user_id`, `payment_id` are untouched; `updated_at` is refreshed
to the current clock. -/
def applyFields (now : Nat) (f : UpdateFields) (o : Order) : Order :=
  { o with
    status := match f.status with
              | some s => (parseStatus s).getD o.status
              | none => o.status
    total := f.total.getD o.total
    items := f.items.getD o.items
    updated_at := now }

/-- Modelled from the spec (§4.1 `update`): a partial update of the record with
the given id; `NotFoundError` if the id is unknown, `ValidationError` if any
supplied field violates its invariant, and in either failure case nothing is
written (no partial writes, §7). -/
def update (σ : StoreState) (id : Nat) (f : UpdateFields) :
    Except StoreError (StoreState × Order) :=
  match σ.orders.find? (fun o => o.id == id) with
  | none => .error .notFoundError
  | some o =>
    if fieldsValid f then
      .ok ({ σ with
             orders := σ.orders.map (fun x => if x.id == id then applyFields σ.now f x else x) },
           applyFields σ.now f o)
    else
      .error .validationError

/-- Modelled from the spec (§4.1 `get`): lookup by id, `NotFoundError` when
absent. -/
def get (σ : StoreState) (id : Nat) : Except StoreError Order :=
  match σ.orders.find? (fun o => o.id == id) with
  | none => .error .notFoundError
  | some o => .ok o

end OrderStore

/-- The operations that drive the store; `tick` models the passage of wall
time between calls. -/
inductive Op where
  | tick (d : Nat)
  | create (email : String) (total : Int) (items : List String)
      (user_id : String) (payment_id : String)
  | update (id : Nat) (f : UpdateFields)
deriving DecidableEq, Repr

/-- One step of the store: a failed operation leaves the state unchanged
(§7: no partial writes). -/
def exec (σ : StoreState) (op : Op) : StoreState :=
  match op with
  | .tick d => { σ with now := σ.now + d }
  | .create e t it u p =>
    match OrderStore.create σ e t it u p with
    | .ok (σ2, _) => σ2
    | .error _ => σ
  | .update id f =>
    match OrderStore.update σ id f with
    | .ok (σ2, _) => σ2
    | .error _ => σ

/-- Runs a sequence of operations from a state. -/
def run (σ : StoreState) (ops : List Op) : StoreState :=
  ops.foldl exec σ

/-- The empty initial store. -/
def init : StoreState :=
  { orders := [], nextId := 0, now := 0 }

/-- A state is reachable when some operation sequence produces it from the
empty store. -/
def Reachable (σ : StoreState) : Prop :=
  ∃ ops : List Op, run init ops = σ

/-- The invariant maintained by every store operation: stored ids lie below the
fresh supply and are pairwise distinct, stored totals are non-negative and
within the decimal bound, and timestamps are consistent with the clock. -/
def Inv (σ : StoreState) : Prop :=
  (∀ o ∈ σ.orders, o.id < σ.nextId) ∧
  (σ.orders.map Order.id).Nodup ∧
  (∀ o ∈ σ.orders, 0 ≤ o.total ∧ o.total < 10000000000) ∧
  (∀ o ∈ σ.orders, o.created_at ≤ o.updated_at ∧ o.updated_at ≤ σ.now)

theorem applyFields_id (now : Nat) (f : UpdateFields) (o : Order) :
    (OrderStore.applyFields now f o).id = o.id := rfl

theorem applyFields_created_at (now : Nat) (f : UpdateFields) (o : Order) :
    (OrderStore.applyFields now f o).created_at = o.created_at := rfl

theorem applyFields_updated_at (now : Nat) (f : UpdateFields) (o : Order) :
    (OrderStore.applyFields now f o).updated_at = now := rfl

theorem ids_map_update (l : List Order) (id now : Nat) (f : UpdateFields) :
    (l.map (fun x => if x.id == id then OrderStore.applyFields now f x else x)).map Order.id
      = l.map Order.id := by
  rw [List.map_map]
  refine List.map_congr_left ?_
  intro x _
  by_cases h : (x.id == id) = true <;> simp [Function.comp, h, applyFields_id]

/-- Every store operation preserves the invariant. -/
theorem inv_exec (σ : StoreState) (op : Op) (h : Inv σ) : Inv (exec σ op) := by
  obtain ⟨hid, hnd, htot, htime⟩ := h
  cases op with
  | tick d =>
    refine ⟨hid, hnd, htot, ?_⟩
    intro o ho
    exact ⟨(htime o ho).1, le_trans (htime o ho).2 (Nat.le_add_right _ _)⟩
  | create e t it u p =>
    cases hc : validEmail e && validTotal t with
    | false =>
      simp only [exec, OrderStore.create, hc, Bool.false_eq_true, if_false]
      exact ⟨hid, hnd, htot, htime⟩
    | true =>
      have hvt : validTotal t = true := by
        rw [Bool.and_eq_true] at hc
        exact hc.2
      have hvt2 : 0 ≤ t ∧ t < 10000000000 := by
        simpa [validTotal, Bool.and_eq_true, decide_eq_true_eq] using hvt
      simp only [exec, OrderStore.create, hc, if_true]
      refine ⟨?_, ?_, ?_, ?_⟩
      · intro o ho
        rcases List.mem_append.mp ho with h1 | h1
        · exact Nat.lt_succ_of_lt (hid o h1)
        · rcases List.mem_singleton.mp h1 with rfl
          exact Nat.lt_succ_self _
      · rw [List.map_append]
        refine List.Nodup.append hnd (List.nodup_singleton _) ?_
        intro a ha hb
        rcases List.mem_singleton.mp hb with rfl
        obtain ⟨x, hx, hxe⟩ := List.mem_map.mp ha
        exact absurd hxe (Nat.ne_of_lt (hid x hx))
      · intro o ho
        rcases List.mem_append.mp ho with h1 | h1
        · exact htot o h1
        · rcases List.mem_singleton.mp h1 with rfl
          exact hvt2
      · intro o ho
        rcases List.mem_append.mp ho with h1 | h1
        · exact htime o h1
        · rcases List.mem_singleton.mp h1 with rfl
          exact ⟨le_refl _, le_refl _⟩
  | update id f =>
    cases hfind : σ.orders.find? (fun o => o.id == id) with
    | none =>
      simp only [exec, OrderStore.update, hfind]
      exact ⟨hid, hnd, htot, htime⟩
    | some o0 =>
      cases hval : OrderStore.fieldsValid f with
      | false =>
        simp only [exec, OrderStore.update, hfind, hval, Bool.false_eq_true, if_false]
        exact ⟨hid, hnd, htot, htime⟩
      | true =>
        simp only [exec, OrderStore.update, hfind, hval, if_true]
        refine ⟨?_, ?_, ?_, ?_⟩
        · intro o ho
          obtain ⟨x, hx, hxe⟩ := List.mem_map.mp ho
          have : o.id = x.id := by
            rw [← hxe]
            by_cases hxid : (x.id == id) = true <;> simp [hxid, applyFields_id]
          rw [this]
          exact hid x hx
        · rw [ids_map_update]
          exact hnd
        · intro o ho
          obtain ⟨x, hx, hxe⟩ := List.mem_map.mp ho
          by_cases hxid : (x.id == id) = true
          · rw [← hxe]
            simp only [hxid, if_true]
            cases hft : f.total with
            | none =>
              simpa [OrderStore.applyFields, hft] using htot x hx
            | some t =>
              have hvt : validTotal t = true := by
                have h2 := hval
                simp only [OrderStore.fieldsValid, hft, Bool.and_eq_true] at h2
                exact h2.2
              have hvt2 : 0 ≤ t ∧ t < 10000000000 := by
                simpa [validTotal, Bool.and_eq_true, decide_eq_true_eq] using hvt
              simpa [OrderStore.applyFields, hft] using hvt2
          · rw [← hxe]
            simp only [hxid, if_false]
            exact htot x hx
        · intro o ho
          obtain ⟨x, hx, hxe⟩ := List.mem_map.mp ho
          by_cases hxid : (x.id == id) = true
          · rw [← hxe]
            simp only [hxid, if_true, applyFields_created_at, applyFields_updated_at]
            exact ⟨le_trans (htime x hx).1 (htime x hx).2, le_refl _⟩
          · rw [← hxe]
            simp only [hxid, if_false]
            exact htime x hx

theorem inv_run (σ : StoreState) (ops : List Op) (h : Inv σ) : Inv (run σ ops) := by
  induction ops generalizing σ with
  | nil => exact h
  | cons op ops ih => exact ih _ (inv_exec σ op h)

theorem inv_init : Inv init := by
  refine ⟨?_, ?_, ?_, ?_⟩ <;> simp [init]

/-- Every reachable store state satisfies the invariant. -/
theorem reachable_inv (σ : StoreState) (h : Reachable σ) : Inv σ := by
  obtain ⟨ops, rfl⟩ := h
  exact inv_run init ops inv_init

/-- No operation removes an order, changes its id or its `created_at`, or
decreases its `updated_at`. -/
theorem exec_preserves_order (σ : StoreState) (op : Op) (h : Inv σ)
    (o : Order) (ho : o ∈ σ.orders) :
    ∃ o2 ∈ (exec σ op).orders, o2.id = o.id ∧ o2.created_at = o.created_at ∧
      o.updated_at ≤ o2.updated_at := by
  obtain ⟨hid, hnd, htot, htime⟩ := h
  cases op with
  | tick d => exact ⟨o, ho, rfl, rfl, le_refl _⟩
  | create e t it u p =>
    cases hc : validEmail e && validTotal t with
    | false =>
      simp only [exec, OrderStore.create, hc, Bool.false_eq_true, if_false]
      exact ⟨o, ho, rfl, rfl, le_refl _⟩
    | true =>
      simp only [exec, OrderStore.create, hc, if_true]
      exact ⟨o, List.mem_append_left _ ho, rfl, rfl, le_refl _⟩
  | update id f =>
    cases hfind : σ.orders.find? (fun x => x.id == id) with
    | none =>
      simp only [exec, OrderStore.update, hfind]
      exact ⟨o, ho, rfl, rfl, le_refl _⟩
    | some o0 =>
      cases hval : OrderStore.fieldsValid f with
      | false =>
        simp only [exec, OrderStore.update, hfind, hval, Bool.false_eq_true, if_false]
        exact ⟨o, ho, rfl, rfl, le_refl _⟩
      | true =>
        simp only [exec, OrderStore.update, hfind, hval, if_true]
        refine ⟨if o.id == id then OrderStore.applyFields σ.now f o else o, ?_, ?_, ?_, ?_⟩
        · exact List.mem_map_of_mem _ ho
        · by_cases hxid : (o.id == id) = true <;> simp [hxid, applyFields_id]
        · by_cases hxid : (o.id == id) = true <;> simp [hxid, applyFields_created_at]
        · by_cases hxid : (o.id == id) = true
          · simp only [hxid, if_true, applyFields_updated_at]
            exact (htime o ho).2
          · simp [hxid]

/-! Concrete fixtures for the scenario proofs: the two-order store of §8
(order A: `user_id="u1"`, `payment_id="p1"`; order B: `user_id="u1"`,
`payment_id="p2"`), built by running the store operations. -/

/-- The §8 scenario operations: create A, let one time unit pass, create B. -/
def scenarioOps1 : List Op :=
  [Op.create "a@example.com" 1000 [] "u1" "p1",
   Op.tick 1,
   Op.create "b@example.com" 2000 [] "u1" "p2"]

/-- The state after the §8 scenario creations. -/
def scenarioState : StoreState :=
  run init scenarioOps1

/-- Order A of the §8 scenario as stored: id 0, total 10.00, created at time 0. -/
def orderA : Order :=
  { id := 0, email := "a@example.com", status := .pending, total := 1000,
    items := [], user_id := "u1", payment_id := "p1", created_at := 0, updated_at := 0 }

/-- Order B of the §8 scenario as stored: id 1, total 20.00, created at time 1. -/
def orderB : Order :=
  { id := 1, email := "b@example.com", status := .pending, total := 2000,
    items := [], user_id := "u1", payment_id := "p2", created_at := 1, updated_at := 1 }

/-- The partial update setting the status to `paid`. -/
def paidFields : UpdateFields :=
  { status := some "paid", total := none, items := none }

/-- The partial update setting the status to the invalid label `bogus`. -/
def bogusFields : UpdateFields :=
  { status := some "bogus", total := none, items := none }

/-- The state after additionally updating order A to `paid`. -/
def scenarioState2 : StoreState :=
  exec scenarioState (Op.update 0 paidFields)

/-- Order A after the `paid` update: status `paid`, `updated_at` refreshed to 1. -/
def orderA_paid : Order :=
  { orderA with status := .paid, updated_at := 1 }

/-- The label of every enumeration member is among the seven valid labels. -/
theorem status_label_mem (st : OrderStatus) : st.label ∈ validStatusLabels := by
  cases st <;> decide

/-- The defensive contract the specification states for `get_by_status` (§4.2):
fail with `ValidationError` when the argument is not a member of the status
enumeration, otherwise filter exactly.  This definition follows the spec's
words, for comparison with the source embedding `OrderQuerySet.get_by_status`. -/
def getByStatusSpec (qs : List Order) (s : String) : Except StoreError (List Order) :=
  if s ∈ validStatusLabels then
    Except.ok (qs.filter (fun o => o.status.label == s))
  else
    Except.error StoreError.validationError

/-- C1 counterexample: the source `get_by_status` (a plain `filter`, never
failing) disagrees with the claimed defensive contract at the concrete
argument `"bogus"`: the code returns the empty sequence where the claim
demands a `ValidationError`. -/
theorem C1_status_validation_counterexample :
    OrderQuerySet.get_by_status [] "bogus" = [] ∧
    getByStatusSpec [] "bogus" = Except.error StoreError.validationError ∧
    Except.ok (OrderQuerySet.get_by_status [] "bogus") ≠ getByStatusSpec [] "bogus" := by
  refine ⟨rfl, ?_, ?_⟩
  · rw [getByStatusSpec, if_neg (by decide)]
  · intro h
    rw [getByStatusSpec, if_neg (by decide)] at h
    exact Except.noConfusion h

/-- C1 (amended): for every status argument, `get_by_status` returns exactly
the stored orders whose status label equals the argument; for an argument not
in the enumeration it returns the empty sequence and raises no error. -/
theorem C1_status_filter_amended (qs : List Order) (s : String) :
    (∀ o : Order, o ∈ OrderQuerySet.get_by_status qs s ↔ o ∈ qs ∧ o.status.label = s) ∧
    (s ∉ validStatusLabels → OrderQuerySet.get_by_status qs s = []) := by
  constructor
  · intro o
    simp [OrderQuerySet.get_by_status, List.mem_filter]
  · intro hs
    rw [OrderQuerySet.get_by_status, List.filter_eq_nil_iff]
    intro o _
    simp only [beq_iff_eq]
    intro he
    exact hs (he ▸ status_label_mem o.status)

/-- C1 witness: the amended statement at the concrete store `[orderA]` and the
invalid argument `"bogus"`. -/
theorem C1_status_filter_witness :
    ("bogus" ∉ validStatusLabels) ∧ OrderQuerySet.get_by_status [orderA] "bogus" = [] :=
  ⟨by decide, (C1_status_filter_amended [orderA] "bogus").2 (by decide)⟩

/-- C2: `get_by_user_id` and `get_by_payment_id` are exact case-sensitive
equality filters, and on the store `[A, B]` of §8, `get_by_user_id "u1"`
returns both orders while `get_by_payment_id "p1"` returns only A. -/
theorem C2_user_payment_lookups (qs : List Order) (v : String) :
    (∀ o : Order, o ∈ OrderQuerySet.get_by_user_id qs v ↔ o ∈ qs ∧ o.user_id = v) ∧
    (∀ o : Order, o ∈ OrderQuerySet.get_by_payment_id qs v ↔ o ∈ qs ∧ o.payment_id = v) ∧
    OrderQuerySet.get_by_user_id [orderA, orderB] "u1" = [orderA, orderB] ∧
    OrderQuerySet.get_by_payment_id [orderA, orderB] "p1" = [orderA] := by
  refine ⟨?_, ?_, by decide, by decide⟩
  · intro o
    simp [OrderQuerySet.get_by_user_id, List.mem_filter]
  · intro o
    simp [OrderQuerySet.get_by_payment_id, List.mem_filter]

/-- C7: `get_by_created_at` matches the full timestamp exactly; on the §8
store, querying time 0 returns only A and querying time 1 returns only B,
each excluding the other's nearby but distinct timestamp. -/
theorem C7_created_at_exact (qs : List Order) (t : Nat) :
    (∀ o : Order, o ∈ OrderQuerySet.get_by_created_at qs t ↔ o ∈ qs ∧ o.created_at = t) ∧
    OrderQuerySet.get_by_created_at [orderA, orderB] 0 = [orderA] ∧
    OrderQuerySet.get_by_created_at [orderA, orderB] 1 = [orderB] := by
  refine ⟨?_, by decide, by decide⟩
  intro o
  simp [OrderQuerySet.get_by_created_at, List.mem_filter]

/-- C8: each of the four lookups returns the empty sequence when no stored
order matches the argument; being total functions (plain filters in the
source), they raise no error. -/
theorem C8_no_match_empty (qs : List Order) (v : String) (t : Nat) :
    ((∀ o ∈ qs, o.user_id ≠ v) → OrderQuerySet.get_by_user_id qs v = []) ∧
    ((∀ o ∈ qs, o.payment_id ≠ v) → OrderQuerySet.get_by_payment_id qs v = []) ∧
    ((∀ o ∈ qs, o.status.label ≠ v) → OrderQuerySet.get_by_status qs v = []) ∧
    ((∀ o ∈ qs, o.created_at ≠ t) → OrderQuerySet.get_by_created_at qs t = []) := by
  refine ⟨?_, ?_, ?_, ?_⟩ <;> intro h
  · rw [OrderQuerySet.get_by_user_id, List.filter_eq_nil_iff]
    intro o ho
    simpa using h o ho
  · rw [OrderQuerySet.get_by_payment_id, List.filter_eq_nil_iff]
    intro o ho
    simpa using h o ho
  · rw [OrderQuerySet.get_by_status, List.filter_eq_nil_iff]
    intro o ho
    simpa using h o ho
  · rw [OrderQuerySet.get_by_created_at, List.filter_eq_nil_iff]
    intro o ho
    simpa using h o ho

/-- C8 witness: the four lookups at unmatched concrete arguments over the §8
store. -/
theorem C8_no_match_empty_witness :
    OrderQuerySet.get_by_user_id scenarioState.orders "nobody" = [] ∧
    OrderQuerySet.get_by_payment_id scenarioState.orders "nobody" = [] ∧
    OrderQuerySet.get_by_status scenarioState.orders "shipped" = [] ∧
    OrderQuerySet.get_by_created_at scenarioState.orders 77 = [] :=
  ⟨(C8_no_match_empty scenarioState.orders "nobody" 77).1 (by decide),
   (C8_no_match_empty scenarioState.orders "nobody" 77).2.1 (by decide),
   (C8_no_match_empty scenarioState.orders "shipped" 77).2.2.1 (by decide),
   (C8_no_match_empty scenarioState.orders "x" 77).2.2.2 (by decide)⟩

/-- C10: every manager-level lookup returns exactly what the corresponding
queryset filter returns on the same backing collection: the manager layer is
pure delegation. -/
theorem C10_manager_delegation (store : List Order) (v s : String) (t : Nat) :
    OrderManager.get_by_user_id store v = OrderQuerySet.get_by_user_id store v ∧
    OrderManager.get_by_payment_id store v = OrderQuerySet.get_by_payment_id store v ∧
    OrderManager.get_by_status store s = OrderQuerySet.get_by_status store s ∧
    OrderManager.get_by_created_at store t = OrderQuerySet.get_by_created_at store t :=
  ⟨rfl, rfl, rfl, rfl⟩

/-- A fresh third order used to witness id assignment on a non-empty store. -/
def orderC : Order :=
  { id := 2, email := "c@example.com", status := .pending, total := 500,
    items := [], user_id := "u2", payment_id := "p3", created_at := 1, updated_at := 1 }

/-- C3: in every reachable state every stored total is non-negative; creating
with a negative total fails with `ValidationError`, and updating an existing
order with a negative total fails with `ValidationError`, so no negative-total
record is ever stored. -/
theorem C3_total_nonnegative :
    (∀ σ : StoreState, Reachable σ → ∀ o ∈ σ.orders, 0 ≤ o.total) ∧
    (∀ (σ : StoreState) (e : String) (t : Int) (it : List String) (u p : String),
      t < 0 → OrderStore.create σ e t it u p = Except.error StoreError.validationError) ∧
    (∀ (σ : StoreState) (id : Nat) (f : UpdateFields) (t : Int),
      f.total = some t → t < 0 → (∃ o ∈ σ.orders, o.id = id) →
      OrderStore.update σ id f = Except.error StoreError.validationError) := by
  refine ⟨?_, ?_, ?_⟩
  · intro σ hσ o ho
    exact ((reachable_inv σ hσ).2.2.1 o ho).1
  · intro σ e t it u p ht
    have h0 : decide (0 ≤ t) = false := decide_eq_false (not_le.mpr ht)
    have hvt : validTotal t = false := by simp [validTotal, h0]
    simp [OrderStore.create, hvt]
  · intro σ id f t hft ht hex
    cases hfind : σ.orders.find? (fun o => o.id == id) with
    | none =>
      exfalso
      obtain ⟨o, ho, hoid⟩ := hex
      have := List.find?_eq_none.mp hfind o ho
      simp [hoid] at this
    | some o0 =>
      have h0 : decide (0 ≤ t) = false := decide_eq_false (not_le.mpr ht)
      have hvt : validTotal t = false := by simp [validTotal, h0]
      have hfv : OrderStore.fieldsValid f = false := by
        simp [OrderStore.fieldsValid, hft, hvt]
      simp [OrderStore.update, hfind, hfv]

/-- C3 witness: a stored total of the §8 store is non-negative; a create with
total `-5` and an update of order A to total `-5` both fail with
`ValidationError`. -/
theorem C3_total_nonnegative_witness :
    (0 ≤ orderA.total) ∧
    OrderStore.create init "a@example.com" (-5) [] "u1" "p1" =
      Except.error StoreError.validationError ∧
    OrderStore.update scenarioState 0 { status := none, total := some (-5), items := none } =
      Except.error StoreError.validationError :=
  ⟨C3_total_nonnegative.1 scenarioState ⟨scenarioOps1, rfl⟩ orderA (by decide),
   C3_total_nonnegative.2.1 init "a@example.com" (-5) [] "u1" "p1" (by decide),
   C3_total_nonnegative.2.2 scenarioState 0
     { status := none, total := some (-5), items := none } (-5) rfl (by decide)
     ⟨orderA, by decide, rfl⟩⟩

/-- C4: the status enumeration is closed — every `OrderStatus` value is one of
the seven declared members, every stored order's status in every reachable
state is a member, and a successfully created order has status `pending`. -/
theorem C4_status_enumeration :
    (∀ s : OrderStatus, s ∈ allStatuses) ∧
    (∀ σ : StoreState, Reachable σ → ∀ o ∈ σ.orders, o.status ∈ allStatuses) ∧
    (∀ (σ σ2 : StoreState) (e : String) (t : Int) (it : List String) (u p : String) (o : Order),
      OrderStore.create σ e t it u p = Except.ok (σ2, o) → o.status = OrderStatus.pending) := by
  have hall : ∀ s : OrderStatus, s ∈ allStatuses := fun s => by cases s <;> decide
  refine ⟨hall, fun σ _ o _ => hall o.status, ?_⟩
  intro σ σ2 e t it u p o h
  cases hc : validEmail e && validTotal t with
  | false =>
    simp only [OrderStore.create, hc, Bool.false_eq_true, if_false] at h
    exact Except.noConfusion h
  | true =>
    simp only [OrderStore.create, hc, if_true, Except.ok.injEq, Prod.mk.injEq] at h
    rw [← h.2]

/-- C4 witness: membership of a member and of a stored status, and the pending
status of the concretely created order A. -/
theorem C4_status_enumeration_witness :
    OrderStatus.failed ∈ allStatuses ∧
    orderA.status ∈ allStatuses ∧
    orderA.status = OrderStatus.pending :=
  ⟨C4_status_enumeration.1 OrderStatus.failed,
   C4_status_enumeration.2.1 scenarioState ⟨scenarioOps1, rfl⟩ orderA (by decide),
   C4_status_enumeration.2.2 init { orders := [orderA], nextId := 1, now := 0 }
     "a@example.com" 1000 [] "u1" "p1" orderA rfl⟩

/-- C5: immediately after creation `created_at = updated_at`; every successful
update refreshes `updated_at` to the current clock; no operation changes a
stored order's id or `created_at` or decreases its `updated_at`; and
`created_at ≤ updated_at` holds in every reachable state. -/
theorem C5_timestamp_discipline :
    (∀ (σ σ2 : StoreState) (e : String) (t : Int) (it : List String) (u p : String) (o : Order),
      OrderStore.create σ e t it u p = Except.ok (σ2, o) → o.created_at = o.updated_at) ∧
    (∀ (σ σ2 : StoreState) (id : Nat) (f : UpdateFields) (o2 : Order),
      OrderStore.update σ id f = Except.ok (σ2, o2) → o2.updated_at = σ.now) ∧
    (∀ σ : StoreState, Reachable σ → ∀ op : Op, ∀ o ∈ σ.orders,
      ∃ o2 ∈ (exec σ op).orders, o2.id = o.id ∧ o2.created_at = o.created_at ∧
        o.updated_at ≤ o2.updated_at) ∧
    (∀ σ : StoreState, Reachable σ → ∀ o ∈ σ.orders, o.created_at ≤ o.updated_at) := by
  refine ⟨?_, ?_, ?_, ?_⟩
  · intro σ σ2 e t it u p o h
    cases hc : validEmail e && validTotal t with
    | false =>
      simp only [OrderStore.create, hc, Bool.false_eq_true, if_false] at h
      exact Except.noConfusion h
    | true =>
      simp only [OrderStore.create, hc, if_true, Except.ok.injEq, Prod.mk.injEq] at h
      rw [← h.2]
  · intro σ σ2 id f o2 h
    cases hfind : σ.orders.find? (fun o => o.id == id) with
    | none =>
      simp only [OrderStore.update, hfind] at h
      exact Except.noConfusion h
    | some o0 =>
      cases hval : OrderStore.fieldsValid f with
      | false =>
        simp only [OrderStore.update, hfind, hval, Bool.false_eq_true, if_false] at h
        exact Except.noConfusion h
      | true =>
        simp only [OrderStore.update, hfind, hval, if_true, Except.ok.injEq,
          Prod.mk.injEq] at h
        rw [← h.2, applyFields_updated_at]
  · intro σ hσ op o ho
    exact exec_preserves_order σ op (reachable_inv σ hσ) o ho
  · intro σ hσ o ho
    exact ((reachable_inv σ hσ).2.2.2 o ho).1

/-- C5 witness: order A is created with equal timestamps; the `paid` update of
A refreshes `updated_at` to the clock reading 1; a later operation keeps A's
`created_at` and does not decrease its `updated_at`; and B satisfies
`created_at ≤ updated_at`. -/
theorem C5_timestamp_discipline_witness :
    orderA.created_at = orderA.updated_at ∧
    orderA_paid.updated_at = scenarioState.now ∧
    (∃ o2 ∈ (exec scenarioState (Op.tick 5)).orders,
      o2.id = orderA.id ∧ o2.created_at = orderA.created_at ∧
        orderA.updated_at ≤ o2.updated_at) ∧
    orderB.created_at ≤ orderB.updated_at :=
  ⟨C5_timestamp_discipline.1 init { orders := [orderA], nextId := 1, now := 0 }
     "a@example.com" 1000 [] "u1" "p1" orderA rfl,
   C5_timestamp_discipline.2.1 scenarioState scenarioState2 0 paidFields orderA_paid rfl,
   C5_timestamp_discipline.2.2.1 scenarioState ⟨scenarioOps1, rfl⟩ (Op.tick 5) orderA
     (by decide),
   C5_timestamp_discipline.2.2.2 scenarioState ⟨scenarioOps1, rfl⟩ orderB (by decide)⟩

/-- C6: a failed create or update leaves the state unchanged; in the §8
scenario, updating A to `paid` succeeds (after which `get_by_status "paid"`
holds exactly A and excludes B), updating A to the invalid label `bogus`
fails with `ValidationError`, leaves the state unchanged, and A's status is
still `paid`. -/
theorem C6_atomic_failures :
    (∀ (σ : StoreState) (e : String) (t : Int) (it : List String) (u p : String)
        (err : StoreError),
      OrderStore.create σ e t it u p = Except.error err → exec σ (Op.create e t it u p) = σ) ∧
    (∀ (σ : StoreState) (id : Nat) (f : UpdateFields) (err : StoreError),
      OrderStore.update σ id f = Except.error err → exec σ (Op.update id f) = σ) ∧
    OrderStore.update scenarioState 0 paidFields = Except.ok (scenarioState2, orderA_paid) ∧
    OrderQuerySet.get_by_status scenarioState2.orders "paid" = [orderA_paid] ∧
    OrderQuerySet.get_by_status scenarioState2.orders "pending" = [orderB] ∧
    OrderStore.update scenarioState2 0 bogusFields = Except.error StoreError.validationError ∧
    exec scenarioState2 (Op.update 0 bogusFields) = scenarioState2 ∧
    OrderStore.get scenarioState2 0 = Except.ok orderA_paid := by
  refine ⟨?_, ?_, rfl, rfl, rfl, rfl, rfl, rfl⟩
  · intro σ e t it u p err h
    simp only [exec, h]
  · intro σ id f err h
    simp only [exec, h]

/-- C6 witness: a create with a malformed email and an update of an unknown id
both fail and leave the empty store unchanged. -/
theorem C6_atomic_failures_witness :
    exec init (Op.create "bademail" (-1) [] "u" "p") = init ∧
    exec init (Op.update 5 paidFields) = init :=
  ⟨C6_atomic_failures.1 init "bademail" (-1) [] "u" "p" StoreError.validationError rfl,
   C6_atomic_failures.2.1 init 5 paidFields StoreError.notFoundError rfl⟩

/-- C9: stored ids are pairwise distinct in every reachable state; a
successful create assigns the server-chosen fresh id (the model's `create`
takes no id argument, mirroring `editable=False`), distinct from every
previously stored id; and no operation changes a stored order's id. -/
theorem C9_id_uniqueness :
    (∀ σ : StoreState, Reachable σ → (σ.orders.map Order.id).Nodup) ∧
    (∀ (σ σ2 : StoreState) (e : String) (t : Int) (it : List String) (u p : String) (o : Order),
      Reachable σ → OrderStore.create σ e t it u p = Except.ok (σ2, o) →
        o.id = σ.nextId ∧ o.id ∉ σ.orders.map Order.id) ∧
    (∀ σ : StoreState, Reachable σ → ∀ op : Op, ∀ o ∈ σ.orders,
      ∃ o2 ∈ (exec σ op).orders, o2.id = o.id) := by
  refine ⟨?_, ?_, ?_⟩
  · intro σ hσ
    exact (reachable_inv σ hσ).2.1
  · intro σ σ2 e t it u p o hσ h
    have hid := (reachable_inv σ hσ).1
    cases hc : validEmail e && validTotal t with
    | false =>
      simp only [OrderStore.create, hc, Bool.false_eq_true, if_false] at h
      exact Except.noConfusion h
    | true =>
      simp only [OrderStore.create, hc, if_true, Except.ok.injEq, Prod.mk.injEq] at h
      constructor
      · rw [← h.2]
      · rw [← h.2]
        intro hmem
        obtain ⟨x, hx, hxe⟩ := List.mem_map.mp hmem
        exact absurd hxe (Nat.ne_of_lt (hid x hx))
  · intro σ hσ op o ho
    obtain ⟨o2, h2, hid2, _, _⟩ := exec_preserves_order σ op (reachable_inv σ hσ) o ho
    exact ⟨o2, h2, hid2⟩

/-- C9 witness: the §8 store has pairwise-distinct ids; creating order C there
assigns the fresh id 2, distinct from the stored ids; and a later operation
keeps B's id. -/
theorem C9_id_uniqueness_witness :
    (scenarioState.orders.map Order.id).Nodup ∧
    (orderC.id = scenarioState.nextId ∧ orderC.id ∉ scenarioState.orders.map Order.id) ∧
    (∃ o2 ∈ (exec scenarioState (Op.tick 3)).orders, o2.id = orderB.id) :=
  ⟨C9_id_uniqueness.1 scenarioState ⟨scenarioOps1, rfl⟩,
   C9_id_uniqueness.2.1 scenarioState
     { orders := scenarioState.orders ++ [orderC], nextId := 3, now := 1 }
     "c@example.com" 500 [] "u2" "p3" orderC ⟨scenarioOps1, rfl⟩ rfl,
   C9_id_uniqueness.2.2 scenarioState ⟨scenarioOps1, rfl⟩ (Op.tick 3) orderB (by decide)⟩

end OrderSys
